import Mathlib

/-!
# Signal Ingestion & State Engine — verification development

Shallow embedding of the core of `src/app.py` (coinryze-pro-analyzer):
the `LightweightPredictor` heuristic forecaster, and the `SignalProcessor`
methods `parse_signal` and `add_signal` (phase state machine, field
extraction, dedup-insert with bounded FIFO history).

Modelling conventions:
* Python strings are `List Char`.  The marker literals of the source file
  contain mojibake characters (emoji bytes decoded through a legacy code
  page); they are reproduced here codepoint-for-codepoint with `\uXXXX`
  escapes, exactly as they appear in `src/app.py`.
* Python floats are modelled as exact rationals `ℚ`.  Every constant the
  code compares against (0.4, 0.5, 0.6) and every reachable share
  `count/total` is either exactly representable in binary or lands on a
  decimal value whose IEEE-754 rounding coincides on both sides of the
  comparison, so exact arithmetic and float arithmetic agree on all the
  branch decisions the code takes.
* `random.choice(['Green', 'Red'])` is modelled by an explicit oracle
  argument `draw : Color` supplied by the caller.
* `re` character classes: `\d` is modelled as the ASCII digits and `\s`
  as the whitespace codepoints below U+3001 that Python's `re` accepts;
  Python additionally accepts non-ASCII Unicode digits, which never occur
  in the message formats the program handles.
* The wall-clock `timestamp`, the constant `bot_name`/`source` fields and
  the Streamlit session-global `latest_signals` mirror list carry no
  logic and are not modelled.
* `parse_signal` returns `None` in Python at several distinct sites;
  the embedding tags each site with the failure reason it corresponds to
  (`MissingPeriodId`, `UnknownOutcome`, `MissingTradeColor`), plus
  `LadderIndexError` for the IndexError swallowed by the outer
  `try/except` when `self.multipliers[self.current_phase - 1]` would be
  out of range.
-/

/-- The two round colors, `'Green'`/`'Red'` in the source. -/
inductive Color where
  | Green : Color
  | Red : Color
deriving DecidableEq, Repr

/-- Round outcome, `'Win'`/`'Lose'` in the source. -/
inductive Outcome where
  | Win : Outcome
  | Lose : Outcome
deriving DecidableEq, Repr

/-- Prediction color: `'Green'`, `'Red'` or the `'Analyzing...'` placeholder. -/
inductive PredColor where
  | Green : PredColor
  | Red : PredColor
  | Analyzing : PredColor
deriving DecidableEq, Repr

/-- Prediction confidence, `'Low'`/`'Medium'` in the source. -/
inductive Confidence where
  | Low : Confidence
  | Medium : Confidence
deriving DecidableEq, Repr

/-- The `{'color': …, 'confidence': …, 'probability': …}` dict returned by
`LightweightPredictor.predict`. -/
structure Prediction where
  color : PredColor
  confidence : Confidence
  probability : ℚ
deriving DecidableEq, Repr

/-- One accepted signal record (the `signal_data` dict built by
`parse_signal`); the wall-clock `timestamp` and the constant
`bot_name`/`source` fields are omitted. -/
structure SignalRecord where
  period_id : List Char
  result : Outcome
  result_color : Option Color
  trade_color : Color
  quantity : ℚ
  phase : Nat
  prediction : Prediction
deriving DecidableEq, Repr

/-- The mutable state of one `SignalProcessor` (one feed). -/
structure ProcState where
  signals : List SignalRecord
  last_period_id : Option (List Char)
  current_phase : Nat
  multipliers : List ℚ
deriving DecidableEq, Repr

/-- `ANALYSIS_WINDOW` (env default `'5'`). -/
def ANALYSIS_WINDOW : Nat := 5

/-- `MAX_SIGNALS_HISTORY` (env default `'100'`). -/
def MAX_SIGNALS_HISTORY : Nat := 100

/-- `BET_MULTIPLIERS = [1.0, 2.5, 6.25, 15.63, 39.08, 97.62, 244.05, 610.12]`. -/
def BET_MULTIPLIERS : List ℚ :=
  [1.0, 2.5, 6.25, 15.63, 39.08, 97.62, 244.05, 610.12]

/-- A freshly constructed `SignalProcessor` on a cold start (`load_data`
finds nothing in storage). -/
def initProcessor : ProcState :=
  { signals := [], last_period_id := none, current_phase := 1,
    multipliers := BET_MULTIPLIERS }

/-! ## Character classes and pattern matching (the `re` fragment used) -/

/-- Python `\s` on the codepoints that occur in practice (ASCII whitespace,
the C1/Latin-1 whitespace and the Unicode space separators). -/
def isSpaceChar (c : Char) : Bool :=
  c = ' ' ∨ c = '\t' ∨ c = '\n' ∨ c = '\r' ∨ c = '\x0b' ∨ c = '\x0c' ∨
  c = '\x1c' ∨ c = '\x1d' ∨ c = '\x1e' ∨ c = '\x1f' ∨ c = '\u0085' ∨
  c = '\u00A0' ∨ c = '\u1680' ∨ ('\u2000' ≤ c ∧ c ≤ '\u200A') ∨
  c = '\u2028' ∨ c = '\u2029' ∨ c = '\u202F' ∨ c = '\u205F' ∨ c = '\u3000'

/-- Python `\d`, modelled as the ASCII digits. -/
def isDigitChar (c : Char) : Bool :=
  '0' ≤ c ∧ c ≤ '9'

/-- A character admitted by the quantity capture group `[\d.]`. -/
def isQtyChar (c : Char) : Bool :=
  isDigitChar c ∨ c = '.'

/-- If `pat` is a literal prefix of `s`, return the remainder of `s`. -/
def dropLit : List Char → List Char → Option (List Char)
  | [], s => some s
  | _ :: _, [] => none
  | p :: ps, c :: cs => if p = c then dropLit ps cs else none

/-- Case-insensitive variant of `dropLit` (for the `re.IGNORECASE`
quantity patterns). -/
def dropLitCI : List Char → List Char → Option (List Char)
  | [], s => some s
  | _ :: _, [] => none
  | p :: ps, c :: cs => if p.toLower = c.toLower then dropLitCI ps cs else none

/-- `pat in s` — Python substring containment. -/
def hasSub (pat : List Char) : List Char → Bool
  | [] => (dropLit pat []).isSome
  | c :: cs => (dropLit pat (c :: cs)).isSome || hasSub pat cs

/-- Attempt the pattern `label ++ \s*(\d+)` anchored at the start of `s`:
the literal label, then greedy whitespace, then at least one digit.
Whitespace and digits are disjoint, so the greedy `\s*` never needs to
backtrack. -/
def labelNumAt (label s : List Char) : Option (List Char) :=
  match dropLit label s with
  | none => none
  | some r1 =>
    let r2 := r1.dropWhile isSpaceChar
    let ds := r2.takeWhile isDigitChar
    if ds = [] then none else some ds

/-- `re.search(label ++ r"\s*(\d+)", msg)`: try the anchored match at each
start position, leftmost first, and return the captured digit group. -/
def findLabeledNum (label : List Char) : List Char → Option (List Char)
  | [] => labelNumAt label []
  | c :: cs =>
    match labelNumAt label (c :: cs) with
    | some ds => some ds
    | none => findLabeledNum label cs

/-- Attempt `label ++ \s*x?([\d.]+)` (case-insensitive) anchored at the
start of `s`.  After the greedy `\s*`, the optional `x` participates in
the match only when a `[\d.]` character follows it (otherwise the regex
engine backtracks `x?` to the empty alternative, which then also fails
since `x` itself is not in `[\d.]`). -/
def qtyAt (label s : List Char) : Option (List Char) :=
  match dropLitCI label s with
  | none => none
  | some r1 =>
    match r1.dropWhile isSpaceChar with
    | [] => none
    | c :: r3 =>
      if c.toLower = 'x' then
        let ds := r3.takeWhile isQtyChar
        if ds = [] then none else some ds
      else
        let ds := (c :: r3).takeWhile isQtyChar
        if ds = [] then none else some ds

/-- `re.search(label ++ r"\s*x?([\d.]+)", msg, re.IGNORECASE)`. -/
def findQty (label : List Char) : List Char → Option (List Char)
  | [] => qtyAt label []
  | c :: cs =>
    match qtyAt label (c :: cs) with
    | some ds => some ds
    | none => findQty label cs

/-- Python `float()` on a string drawn from `[\d.]+`: defined iff the
string has at least one digit and at most one dot; the value is the usual
decimal reading.  (An undefined parse raises `ValueError`, which
`parse_signal` catches and turns into the ladder fallback.) -/
def pyFloat (s : List Char) : Option ℚ :=
  if s.all isQtyChar ∧ s.count '.' ≤ 1 ∧ s.any isDigitChar then
    let ip := s.takeWhile (fun c => ¬ c = '.')
    let fp := (s.dropWhile (fun c => ¬ c = '.')).drop 1
    let natOf : List Char → Nat := fun l => l.foldl (fun a c => 10 * a + (c.toNat - 48)) 0
    some ((natOf ip : ℚ) + (natOf fp : ℚ) / (10 : ℚ) ^ fp.length)
  else none

/-! ## The marker literals of `parse_signal` (codepoint-exact) -/

/-- Mojibake of the emoji prefix on the `üìåCurrent period ID` patterns. -/
def pinMoji : String := "\uF8FF\u00FC\u00EC\u00E5"

/-- Mojibake bell prefix of `üîîResult:…`. -/
def bellMoji : String := "\uF8FF\u00FC\u00EE\u00EE"

/-- Mojibake party-popper suffix of `Winüéâ`. -/
def partyMoji : String := "\uF8FF\u00FC\u00E9\u00E2"

/-- Mojibake broken-heart suffix of `Loseüíî`. -/
def heartMoji : String := "\uF8FF\u00FC\u00ED\u00EE"

/-- Mojibake green circle of the trade markers. -/
def greenMoji : String := "\uF8FF\u00FC\u00FC\u00A2"

/-- Mojibake red circle of the trade markers. -/
def redMoji : String := "\uF8FF\u00FC\u00EE\u00A5"

/-- Mojibake check mark suffix of the trade markers. -/
def checkMoji : String := "\u201A\u00FA\u00EE\u00D4\u220F\u00E8"

/-- Mojibake phone prefix of `üì≤Trade:`. -/
def phoneMoji : String := "\uF8FF\u00FC\u00EC\u2264"

/-- Period-id pattern labels, in the order `parse_signal` tries them. -/
def periodLabel1 : List Char := "Current period ID:".data
/-- Second period-id label (`üìåCurrent period ID:`). -/
def periodLabel2 : List Char := (pinMoji ++ "Current period ID:").data
/-- Third period-id label (`period ID:`). -/
def periodLabel3 : List Char := "period ID:".data
/-- Fourth period-id label (`üìåperiod ID:`). -/
def periodLabel4 : List Char := (pinMoji ++ "period ID:").data

/-- Win marker substrings, in source order. -/
def winPat1 : List Char := "Result:Win".data
/-- `Winüéâ`. -/
def winPat2 : List Char := ("Win" ++ partyMoji).data
/-- `üîîResult:Winüéâ`. -/
def winPat3 : List Char := (bellMoji ++ "Result:Win" ++ partyMoji).data

/-- Lose marker substrings, in source order. -/
def losePat1 : List Char := "Result:Lose".data
/-- `Loseüíî`. -/
def losePat2 : List Char := ("Lose" ++ heartMoji).data
/-- `üîîResult:Loseüíî`. -/
def losePat3 : List Char := (bellMoji ++ "Result:Lose" ++ heartMoji).data

/-- Green trade marker substrings, in source order. -/
def greenPat1 : List Char := (greenMoji ++ checkMoji).data
/-- `Trade: üü¢`. -/
def greenPat2 : List Char := ("Trade: " ++ greenMoji).data
/-- `üì≤Trade: üü¢‚úîÔ∏è`. -/
def greenPat3 : List Char := (phoneMoji ++ "Trade: " ++ greenMoji ++ checkMoji).data

/-- Red trade marker substrings, in source order. -/
def redPat1 : List Char := (redMoji ++ checkMoji).data
/-- `Trade: üî¥`. -/
def redPat2 : List Char := ("Trade: " ++ redMoji).data
/-- `üì≤Trade: üî¥‚úîÔ∏è`. -/
def redPat3 : List Char := (phoneMoji ++ "Trade: " ++ redMoji ++ checkMoji).data

/-- Quantity pattern labels (both tried under `re.IGNORECASE`). -/
def qtyLabel1 : List Char := "quantity:".data
/-- Second quantity label (`Recommended quantity:`). -/
def qtyLabel2 : List Char := "Recommended quantity:".data

/-! ## Field extraction, exactly as `parse_signal` performs it -/

/-- The period-id extraction cascade of `parse_signal` (four patterns,
first match wins, most specific labels first). -/
def extractPeriodId (message : List Char) : Option (List Char) :=
  match findLabeledNum periodLabel1 message with
  | some ds => some ds
  | none =>
    match findLabeledNum periodLabel2 message with
    | some ds => some ds
    | none =>
      match findLabeledNum periodLabel3 message with
      | some ds => some ds
      | none => findLabeledNum periodLabel4 message

/-- The Win test of `parse_signal` (three substring alternatives). -/
def hasWin (message : List Char) : Bool :=
  hasSub winPat1 message || hasSub winPat2 message || hasSub winPat3 message

/-- The Lose test of `parse_signal`. -/
def hasLose (message : List Char) : Bool :=
  hasSub losePat1 message || hasSub losePat2 message || hasSub losePat3 message

/-- The green trade-color test of `parse_signal`. -/
def hasGreenTrade (message : List Char) : Bool :=
  hasSub greenPat1 message || hasSub greenPat2 message || hasSub greenPat3 message

/-- The red trade-color test of `parse_signal`. -/
def hasRedTrade (message : List Char) : Bool :=
  hasSub redPat1 message || hasSub redPat2 message || hasSub redPat3 message

/-- Trade color resolution: green tested first, then red, else missing. -/
def tradeColorOf (message : List Char) : Option Color :=
  if hasGreenTrade message then some Color.Green
  else if hasRedTrade message then some Color.Red
  else none

/-- The quantity extraction cascade (both patterns case-insensitive;
the second can only match where the first already does). -/
def extractQty (message : List Char) : Option (List Char) :=
  match findQty qtyLabel1 message with
  | some ds => some ds
  | none => findQty qtyLabel2 message

/-! ## LightweightPredictor -/

/-- Python `signals[-window_size:]` (note `l[-0:]` is the whole list). -/
def lastSlice {α : Type} (l : List α) (w : Nat) : List α :=
  if w = 0 then l else l.drop (l.length - w)

/-- The `recent_colors` local of `predict`: the `result_color` values of
the trailing window, keeping only `'Green'`/`'Red'` entries. -/
def recentColorsOf (window_size : Nat) (signals : List SignalRecord) : List Color :=
  (lastSlice signals window_size).filterMap (fun s => s.result_color)

/-- The `total = green_count + red_count` local of `predict`. -/
def totalKnown (l : List Color) : Nat :=
  l.count Color.Green + l.count Color.Red

/-- The `green_prob = green_count / total` local of `predict`. -/
def greenShare (l : List Color) : ℚ :=
  (l.count Color.Green : ℚ) / (totalKnown l : ℚ)

/-- `predicted_color = 'Red' if recent_colors[-1] == 'Green' else 'Green'`. -/
def oppositeColor : Color → Color
  | Color.Green => Color.Red
  | Color.Red => Color.Green

/-- Embed a round color into the prediction color type. -/
def toPredColor : Color → PredColor
  | Color.Green => PredColor.Green
  | Color.Red => PredColor.Red

/-- The `elif green_prob > 0.6 … elif green_prob < 0.4 … else …` tail of
`predict`. -/
def sharePrediction (green_prob : ℚ) : Prediction :=
  if green_prob > 0.6 then
    { color := PredColor.Green, confidence := Confidence.Medium,
      probability := green_prob }
  else if green_prob < 0.4 then
    { color := PredColor.Red, confidence := Confidence.Medium,
      probability := 1 - green_prob }
  else
    { color := if green_prob ≥ 0.5 then PredColor.Green else PredColor.Red,
      confidence := Confidence.Low, probability := 0.55 }

/-- `LightweightPredictor.predict` (src/app.py lines 105–140).  The
streak test `len(recent_colors) >= 2 and recent_colors[-1] ==
recent_colors[-2]` is rendered by matching on the reversed window. -/
def predict (window_size : Nat) (signals : List SignalRecord) : Prediction :=
  if signals.length < 3 then
    { color := PredColor.Analyzing, confidence := Confidence.Low,
      probability := 0.5 }
  else if recentColorsOf window_size signals = [] then
    { color := PredColor.Green, confidence := Confidence.Low,
      probability := 0.5 }
  else if totalKnown (recentColorsOf window_size signals) = 0 then
    { color := PredColor.Green, confidence := Confidence.Low,
      probability := 0.5 }
  else
    match (recentColorsOf window_size signals).reverse with
    | c1 :: c2 :: _ =>
      if c1 = c2 then
        { color := toPredColor (oppositeColor c1),
          confidence := Confidence.Medium, probability := 0.65 }
      else sharePrediction (greenShare (recentColorsOf window_size signals))
    | _ => sharePrediction (greenShare (recentColorsOf window_size signals))

/-! ## SignalProcessor.parse_signal -/

/-- The distinct `return None` sites of `parse_signal`, tagged with the
failure they correspond to (§7 of the spec names the first three;
`LadderIndexError` is the IndexError caught by the outer `try`). -/
inductive ParseFailure where
  | MissingPeriodId : ParseFailure
  | UnknownOutcome : ParseFailure
  | MissingTradeColor : ParseFailure
  | LadderIndexError : ParseFailure
deriving DecidableEq, Repr

/-- The quantity field computation of `parse_signal` (lines 228–239),
performed *after* the phase transition: parse the labeled number, and on
absence or a float parse error fall back to
`self.multipliers[self.current_phase - 1]` where `current_phase` is the
already-updated phase `phase'`.  Python's negative indexing is immaterial
here: the updated phase is ≥ 1 whenever the ladder is nonempty, and both
sides fail on an empty ladder. -/
def quantityAfterUpdate (multipliers : List ℚ) (phase' : Nat)
    (message : List Char) : Option ℚ :=
  match extractQty message with
  | some g =>
    match pyFloat g with
    | some q => some q
    | none => multipliers.get? (phase' - 1)
  | none => multipliers.get? (phase' - 1)

/-- The tail of `parse_signal` after the outcome branch: trade-color
check, quantity, prediction, yielding the finished `signal_data` record.
`st` is the processor state *before* the phase transition (its
`current_phase` is what gets stamped on the record, line 188); `phase'`
is the updated phase. -/
def buildSignal (st : ProcState) (phase' : Nat) (pid : List Char)
    (res : Outcome) (draw : Color) (message : List Char) :
    Except ParseFailure SignalRecord :=
  match tradeColorOf message with
  | none => Except.error ParseFailure.MissingTradeColor
  | some tc =>
    match quantityAfterUpdate st.multipliers phase' message with
    | none => Except.error ParseFailure.LadderIndexError
    | some q =>
      Except.ok
        { period_id := pid, result := res, result_color := some draw,
          trade_color := tc, quantity := q, phase := st.current_phase,
          prediction := predict ANALYSIS_WINDOW st.signals }

/-- `SignalProcessor.parse_signal` (src/app.py lines 176–249).  Returns
the parse result together with the state after the call; the phase
transition (Win → 1, Lose → saturating increment, lines 208–218) happens
during result extraction, before the trade-color and quantity fields are
examined, and persists even when the parse subsequently fails. -/
def parse_signal (st : ProcState) (draw : Color) (message : List Char) :
    Except ParseFailure SignalRecord × ProcState :=
  if message = [] then (Except.error ParseFailure.MissingPeriodId, st)
  else
    match extractPeriodId message with
    | none => (Except.error ParseFailure.MissingPeriodId, st)
    | some pid =>
      if hasWin message then
        (buildSignal st 1 pid Outcome.Win draw message,
         { st with current_phase := 1 })
      else if hasLose message then
        let phase' := if st.current_phase < st.multipliers.length then
          st.current_phase + 1 else st.current_phase
        (buildSignal st phase' pid Outcome.Lose draw message,
         { st with current_phase := phase' })
      else (Except.error ParseFailure.UnknownOutcome, st)

/-! ## SignalProcessor.add_signal -/

/-- `SignalProcessor.add_signal` (src/app.py lines 251–274): dedup by
`period_id`, append, trim to the most recent `MAX_SIGNALS_HISTORY`
records.  (The mirrored session-global `latest_signals` list and the
fire-and-forget `save_data` call are presentation/persistence plumbing,
not modelled; the `if signal_data:` narrowing is the caller's None check,
subsumed by taking a record argument.) -/
def add_signal (st : ProcState) (signal_data : SignalRecord) :
    Bool × ProcState :=
  let existing_ids := st.signals.map (fun s => s.period_id)
  if signal_data.period_id ∉ existing_ids then
    let signals1 := st.signals ++ [signal_data]
    let signals2 := if signals1.length > MAX_SIGNALS_HISTORY then
      signals1.drop (signals1.length - MAX_SIGNALS_HISTORY) else signals1
    (true, { st with signals := signals2,
                     last_period_id := some signal_data.period_id })
  else (false, st)

/-- One iteration of `process_queued_signals` (src/app.py lines 288–297):
parse one message and, if a record came out, insert it. -/
def process_message (st : ProcState) (draw : Color) (msg : List Char) :
    ProcState :=
  match (parse_signal st draw msg).1 with
  | Except.ok r => (add_signal (parse_signal st draw msg).2 r).2
  | Except.error _ => (parse_signal st draw msg).2

/-! ## Statement helpers and concrete inputs -/

/-- Decidable equality of parse results. -/
instance {ε α : Type} [DecidableEq ε] [DecidableEq α] :
    DecidableEq (Except ε α) := fun x y =>
  match x, y with
  | Except.ok a, Except.ok b =>
    if h : a = b then isTrue (by rw [h])
    else isFalse (fun hc => by cases hc; exact h rfl)
  | Except.error e, Except.error f =>
    if h : e = f then isTrue (by rw [h])
    else isFalse (fun hc => by cases hc; exact h rfl)
  | Except.ok _, Except.error _ => isFalse (fun hc => by cases hc)
  | Except.error _, Except.ok _ => isFalse (fun hc => by cases hc)

/-- The condition of the streak-break rule: the window has at least two
known colors and the two most recent ones are equal. -/
def streakFires (l : List Color) : Bool :=
  match l.reverse with
  | c1 :: c2 :: _ => c1 == c2
  | _ => false

/-- The state invariant of §3 of the spec: the live phase and every
stamped phase lie in `[1, len(multiplier_ladder)]`, and the history
length respects the cap. -/
def Invariant (st : ProcState) : Prop :=
  1 ≤ st.current_phase ∧ st.current_phase ≤ st.multipliers.length ∧
  st.signals.length ≤ MAX_SIGNALS_HISTORY ∧
  ∀ r ∈ st.signals, 1 ≤ r.phase ∧ r.phase ≤ st.multipliers.length

/-- The invariant is checkable on concrete states. -/
instance (st : ProcState) : Decidable (Invariant st) := by
  unfold Invariant; infer_instance

/-- A Win message with a red trade marker and no quantity label. -/
def msgWinRed : List Char :=
  ("period ID: 7001\n" ++ "Result:Win" ++ "\nTrade: " ++ redMoji).data

/-- A Lose message with a red trade marker and no quantity label. -/
def msgLoseRed : List Char :=
  ("period ID: 7002\n" ++ "Result:Lose" ++ "\nTrade: " ++ redMoji).data

/-- An accepted message whose quantity label parses to `0`. -/
def msgQtyZero : List Char :=
  ("period ID: 8002\nResult:Win\nTrade: " ++ redMoji ++ "\nquantity: x0").data

/-- A message with outcome and trade color but no period-id label. -/
def msgNoPeriod : List Char :=
  ("Result:Win\nTrade: " ++ redMoji).data

/-- A message with period id and trade color but no outcome marker. -/
def msgNoOutcome : List Char :=
  ("period ID: 7001\nTrade: " ++ redMoji).data

/-- A Win message with period id but no trade-color marker. -/
def msgNoTradeWin : List Char :=
  "period ID: 7001\nResult:Win".data

/-- A Lose message with period id but no trade-color marker. -/
def msgNoTradeLose : List Char :=
  "period ID: 7003\nResult:Lose".data

/-- A message carrying both a specific and a bare period-id label with
different numbers (the bare label comes first in the text). -/
def msgTwoLabels : List Char :=
  "period ID: 222 Current period ID: 111".data

/-- The prediction attached when the history is still short
(`{'color': 'Analyzing...', 'confidence': 'Low', 'probability': 0.5}`). -/
def dummyPrediction : Prediction :=
  { color := PredColor.Analyzing, confidence := Confidence.Low,
    probability := 0.5 }

/-- ASCII digit character for `n < 10`. -/
def digitChar (n : Nat) : Char := Char.ofNat (48 + n)

/-- Three-digit decimal rendering of `i < 1000`, used as a period id. -/
def pid3 (i : Nat) : List Char :=
  [digitChar (i / 100 % 10), digitChar (i / 10 % 10), digitChar (i % 10)]

/-- A plausible stored record with period id `pid3 i`. -/
def recNo (i : Nat) : SignalRecord :=
  { period_id := pid3 i, result := Outcome.Win,
    result_color := some Color.Green, trade_color := Color.Green,
    quantity := 1, phase := 1, prediction := dummyPrediction }

/-- A feed whose history is at the `MAX_SIGNALS_HISTORY` cap, holding the
100 records with period ids `000`–`099`. -/
def fullState : ProcState :=
  { signals := (List.range 100).map recNo, last_period_id := none,
    current_phase := 1, multipliers := BET_MULTIPLIERS }

/-- A record whose period id `999` is absent from `fullState`. -/
def freshRec : SignalRecord := recNo 999

/-- The processor after one Lose from the initial state (phase 2). -/
def phase2State : ProcState := { initProcessor with current_phase := 2 }

/-- The record `parse_signal` emits for `msgWinRed` from `phase2State`
with draw `Green`: it stamps the pre-transition phase 2 but defaults the
quantity from the post-transition phase 1. -/
def cexRecord : SignalRecord :=
  { period_id := "7001".data, result := Outcome.Win,
    result_color := some Color.Green, trade_color := Color.Red,
    quantity := 1, phase := 2, prediction := dummyPrediction }

/-- The record `parse_signal` emits for `msgWinRed` from the initial
state with draw `Green`. -/
def initWinRecord : SignalRecord :=
  { period_id := "7001".data, result := Outcome.Win,
    result_color := some Color.Green, trade_color := Color.Red,
    quantity := 1, phase := 1, prediction := dummyPrediction }

/-- The record `parse_signal` emits for `msgQtyZero` from the initial
state with draw `Green` — its quantity is exactly 0. -/
def qtyZeroRecord : SignalRecord :=
  { period_id := "8002".data, result := Outcome.Win,
    result_color := some Color.Green, trade_color := Color.Red,
    quantity := 0, phase := 1, prediction := dummyPrediction }

/-- A 5-record history whose window colors are `[G, G, G, R, R]`
(scenario B of the spec). -/
def histB : List SignalRecord :=
  [recNo 1, recNo 2, recNo 3,
   { recNo 4 with result_color := some Color.Red },
   { recNo 5 with result_color := some Color.Red }]

/-- A 5-record history whose window colors are `[G, G, G, G, R]`
(scenario C of the spec). -/
def histC : List SignalRecord :=
  [recNo 1, recNo 2, recNo 3, recNo 4,
   { recNo 5 with result_color := some Color.Red }]

/-! ## Theorems -/

attribute [local semireducible] Rat.add Rat.mul Rat.inv Rat.sub Rat.ofScientific

theorem extractPeriodId_nil : extractPeriodId ([] : List Char) = none := by
  decide

theorem totalKnown_eq_length (l : List Color) : totalKnown l = l.length := by
  induction l with
  | nil => rfl
  | cons c tl ih =>
    cases c <;> simp [totalKnown, List.count_cons] at ih ⊢ <;> omega

/-- C1: with a nonempty ladder of length `N` and current phase in
`[1, N]`, a message whose outcome is Win drives the phase to 1, and a
message whose outcome is Lose drives it to `min(phase + 1, N)`, never
above `N` and never below 1. -/
theorem phase_transition (st : ProcState) (draw : Color)
    (message : List Char) (pid : List Char)
    (hpid : extractPeriodId message = some pid)
    (h1 : 1 ≤ st.current_phase) (h2 : st.current_phase ≤ st.multipliers.length) :
    (hasWin message = true →
      (parse_signal st draw message).2.current_phase = 1) ∧
    (hasWin message = false → hasLose message = true →
      (parse_signal st draw message).2.current_phase =
        min (st.current_phase + 1) st.multipliers.length ∧
      1 ≤ (parse_signal st draw message).2.current_phase ∧
      (parse_signal st draw message).2.current_phase ≤ st.multipliers.length) := by
  have hm : message ≠ [] := by
    intro h; rw [h, extractPeriodId_nil] at hpid; cases hpid
  constructor
  · intro hwin
    simp [parse_signal, if_neg hm, hpid, hwin]
  · intro hwin hlose
    simp only [parse_signal, if_neg hm, hpid, hwin, hlose, Bool.false_eq_true,
      if_false, if_true]
    by_cases hc : st.current_phase < st.multipliers.length
    · simp only [if_pos hc]; omega
    · simp only [if_neg hc]; omega

theorem phase_transition_witness :
    (parse_signal initProcessor Color.Green msgWinRed).2.current_phase = 1 ∧
    (parse_signal initProcessor Color.Green msgLoseRed).2.current_phase =
      min (initProcessor.current_phase + 1) initProcessor.multipliers.length :=
  ⟨(phase_transition initProcessor Color.Green msgWinRed ("7001".data)
      (by decide) (by decide) (by decide)).1 (by decide),
   ((phase_transition initProcessor Color.Green msgLoseRed ("7002".data)
      (by decide) (by decide) (by decide)).2 (by decide) (by decide)).1⟩

/-- C9: when the specific `Current period ID:` pattern matches (its first
match capturing `n`) and the bare `period ID:` pattern also matches with
a different number `m`, the extraction cascade returns `n`: the most
specific label wins regardless of position in the message. -/
theorem period_id_prefers_specific (message : List Char) (n m : List Char)
    (hn : findLabeledNum periodLabel1 message = some n)
    (hm : findLabeledNum periodLabel3 message = some m)
    (hnm : n ≠ m) :
    extractPeriodId message = some n := by
  simp only [extractPeriodId, hn]

theorem period_id_prefers_specific_witness :
    extractPeriodId msgTwoLabels = some ("111".data) :=
  period_id_prefers_specific msgTwoLabels ("111".data) ("222".data)
    (by decide) (by decide) (by decide)

/-- C10: phase mutation is not atomic with field validation — a message
with a period id and an outcome marker but no trade-color marker is
rejected with `MissingTradeColor` and emits no record, yet the phase
transition (reset to 1 on Win, saturating increment on Lose) has already
been applied to the feed's state. -/
theorem failed_parse_mutates_phase (st : ProcState) (draw : Color)
    (message : List Char) (pid : List Char)
    (hpid : extractPeriodId message = some pid)
    (hg : hasGreenTrade message = false) (hr : hasRedTrade message = false)
    (h1 : 1 ≤ st.current_phase) (h2 : st.current_phase ≤ st.multipliers.length) :
    (hasWin message = true →
      (parse_signal st draw message).1 =
        Except.error ParseFailure.MissingTradeColor ∧
      (parse_signal st draw message).2.current_phase = 1) ∧
    (hasWin message = false → hasLose message = true →
      (parse_signal st draw message).1 =
        Except.error ParseFailure.MissingTradeColor ∧
      (parse_signal st draw message).2.current_phase =
        min (st.current_phase + 1) st.multipliers.length) := by
  have hm : message ≠ [] := by
    intro h; rw [h, extractPeriodId_nil] at hpid; cases hpid
  have htc : tradeColorOf message = none := by
    simp [tradeColorOf, hg, hr]
  constructor
  · intro hwin
    simp [parse_signal, if_neg hm, hpid, hwin, buildSignal, htc]
  · intro hwin hlose
    simp only [parse_signal, if_neg hm, hpid, hwin, hlose, Bool.false_eq_true,
      if_false, if_true]
    by_cases hc : st.current_phase < st.multipliers.length
    · simp only [if_pos hc]
      constructor
      · simp [buildSignal, htc]
      · exact (by omega :
          st.current_phase + 1 = min (st.current_phase + 1) st.multipliers.length)
    · simp only [if_neg hc]
      constructor
      · simp [buildSignal, htc]
      · exact (by omega :
          st.current_phase = min (st.current_phase + 1) st.multipliers.length)

theorem failed_parse_mutates_phase_witness :
    ((parse_signal initProcessor Color.Green msgNoTradeWin).1 =
        Except.error ParseFailure.MissingTradeColor ∧
      (parse_signal initProcessor Color.Green msgNoTradeWin).2.current_phase = 1) ∧
    ((parse_signal initProcessor Color.Green msgNoTradeLose).1 =
        Except.error ParseFailure.MissingTradeColor ∧
      (parse_signal initProcessor Color.Green msgNoTradeLose).2.current_phase =
        min (initProcessor.current_phase + 1) initProcessor.multipliers.length) :=
  ⟨(failed_parse_mutates_phase initProcessor Color.Green msgNoTradeWin
      ("7001".data) (by decide) (by decide) (by decide) (by decide)
      (by decide)).1 (by decide),
   (failed_parse_mutates_phase initProcessor Color.Green msgNoTradeLose
      ("7003".data) (by decide) (by decide) (by decide) (by decide)
      (by decide)).2 (by decide) (by decide)⟩

/-- C6: a message missing any one of the three required markers is
rejected with the corresponding reason — `MissingPeriodId` when no
period-id pattern matches, `UnknownOutcome` when the period id is present
but neither outcome marker is, `MissingTradeColor` when period id and
outcome are present but no trade-color marker is — and no record (not
even a partial one) is produced. -/
theorem extract_failure_reasons (st : ProcState) (draw : Color)
    (message : List Char) :
    (extractPeriodId message = none →
      (parse_signal st draw message).1 =
        Except.error ParseFailure.MissingPeriodId) ∧
    (∀ pid, extractPeriodId message = some pid →
      hasWin message = false → hasLose message = false →
      (parse_signal st draw message).1 =
        Except.error ParseFailure.UnknownOutcome) ∧
    (∀ pid, extractPeriodId message = some pid →
      (hasWin message = true ∨ hasLose message = true) →
      hasGreenTrade message = false → hasRedTrade message = false →
      (parse_signal st draw message).1 =
        Except.error ParseFailure.MissingTradeColor) := by
  refine ⟨?_, ?_, ?_⟩
  · intro hnone
    by_cases hm : message = []
    · simp [parse_signal, hm]
    · simp [parse_signal, if_neg hm, hnone]
  · intro pid hpid hwin hlose
    have hm : message ≠ [] := by
      intro h; rw [h, extractPeriodId_nil] at hpid; cases hpid
    simp [parse_signal, if_neg hm, hpid, hwin, hlose]
  · intro pid hpid houtcome hg hr
    have hm : message ≠ [] := by
      intro h; rw [h, extractPeriodId_nil] at hpid; cases hpid
    have htc : tradeColorOf message = none := by
      simp [tradeColorOf, hg, hr]
    rcases houtcome with hwin | hlose
    · simp [parse_signal, if_neg hm, hpid, hwin, buildSignal, htc]
    · by_cases hwin : hasWin message = true
      · simp [parse_signal, if_neg hm, hpid, hwin, buildSignal, htc]
      · have hwin' : hasWin message = false := by
          cases hv : hasWin message
          · rfl
          · exact absurd hv hwin
        simp only [parse_signal, if_neg hm, hpid, hwin', hlose,
          Bool.false_eq_true, if_false, if_true]
        by_cases hc : st.current_phase < st.multipliers.length
        · simp only [if_pos hc]; simp [buildSignal, htc]
        · simp only [if_neg hc]; simp [buildSignal, htc]

theorem extract_failure_reasons_witness :
    (parse_signal initProcessor Color.Green msgNoPeriod).1 =
      Except.error ParseFailure.MissingPeriodId ∧
    (parse_signal initProcessor Color.Green msgNoOutcome).1 =
      Except.error ParseFailure.UnknownOutcome ∧
    (parse_signal initProcessor Color.Green msgNoTradeWin).1 =
      Except.error ParseFailure.MissingTradeColor :=
  ⟨(extract_failure_reasons initProcessor Color.Green msgNoPeriod).1
      (by decide),
   (extract_failure_reasons initProcessor Color.Green msgNoOutcome).2.1
      ("7001".data) (by decide) (by decide) (by decide),
   (extract_failure_reasons initProcessor Color.Green msgNoTradeWin).2.2
      ("7001".data) (by decide) (Or.inl (by decide)) (by decide) (by decide)⟩

theorem buildSignal_ok (st : ProcState) (phase' : Nat) (pid : List Char)
    (res : Outcome) (draw : Color) (message : List Char) (r : SignalRecord)
    (h : buildSignal st phase' pid res draw message = Except.ok r) :
    r.phase = st.current_phase ∧
    quantityAfterUpdate st.multipliers phase' message = some r.quantity := by
  unfold buildSignal at h
  cases htc : tradeColorOf message with
  | none => rw [htc] at h; cases h
  | some tc =>
    rw [htc] at h
    cases hq : quantityAfterUpdate st.multipliers phase' message with
    | none => rw [hq] at h; cases h
    | some q =>
      rw [hq] at h
      cases h
      exact ⟨rfl, rfl⟩

/-- C5 counterexample: from the (reachable) state with phase 2, an
accepted Win message with no quantity label yields a record stamped with
phase 2 whose quantity is `BET_MULTIPLIERS[0] = 1.0`, not
`ladder[record.phase − 1] = BET_MULTIPLIERS[1] = 2.5`: the default comes
from the already-updated phase, not the stamped one. -/
theorem quantity_stamped_phase_counterexample :
    (parse_signal phase2State Color.Green msgWinRed).1 = Except.ok cexRecord ∧
    extractQty msgWinRed = none ∧
    cexRecord.phase = 2 ∧
    cexRecord.quantity = 1 ∧
    BET_MULTIPLIERS.get? (cexRecord.phase - 1) = some 2.5 ∧
    ¬ cexRecord.quantity = 2.5 := by
  refine ⟨by decide, by decide, by decide, by decide, by decide, by decide⟩

/-- C5 amended: for every accepted message with no parsable quantity
label, the emitted record's quantity is the ladder value indexed by the
*updated* phase — the feed's phase after this round's outcome is folded
in (`(parse_signal …).2.current_phase`) — while `record.phase` still
carries the phase from before the transition. -/
theorem quantity_defaults_to_updated_phase (st : ProcState) (draw : Color)
    (message : List Char) (r : SignalRecord)
    (hok : (parse_signal st draw message).1 = Except.ok r)
    (hq : ∀ g, extractQty message = some g → pyFloat g = none) :
    st.multipliers.get?
        ((parse_signal st draw message).2.current_phase - 1) =
      some r.quantity ∧
    r.phase = st.current_phase := by
  have hm : message ≠ [] := by
    intro h
    rw [parse_signal, if_pos h] at hok
    cases hok
  have hquse : ∀ phase',
      quantityAfterUpdate st.multipliers phase' message = some r.quantity →
      st.multipliers.get? (phase' - 1) = some r.quantity := by
    intro phase' hqu
    unfold quantityAfterUpdate at hqu
    cases hext : extractQty message with
    | none => rw [hext] at hqu; exact hqu
    | some g =>
      rw [hext] at hqu
      simp only [hq g hext] at hqu
      exact hqu
  rcases hpid : extractPeriodId message with _ | pid
  · rw [parse_signal, if_neg hm, hpid] at hok; cases hok
  · by_cases hwin : hasWin message = true
    · have hok' : buildSignal st 1 pid Outcome.Win draw message =
          Except.ok r := by
        rw [parse_signal, if_neg hm, hpid] at hok
        simpa [hwin] using hok
      obtain ⟨hph, hqu⟩ := buildSignal_ok _ _ _ _ _ _ _ hok'
      have hcp : (parse_signal st draw message).2.current_phase = 1 := by
        simp [parse_signal, if_neg hm, hpid, hwin]
      exact ⟨by rw [hcp]; exact hquse 1 hqu, hph⟩
    · have hwin' : hasWin message = false := by
        cases hv : hasWin message
        · rfl
        · exact absurd hv hwin
      by_cases hlose : hasLose message = true
      · have hok' : buildSignal st
            (if st.current_phase < st.multipliers.length then
              st.current_phase + 1 else st.current_phase)
            pid Outcome.Lose draw message = Except.ok r := by
          rw [parse_signal, if_neg hm, hpid] at hok
          simpa [hwin', hlose] using hok
        obtain ⟨hph, hqu⟩ := buildSignal_ok _ _ _ _ _ _ _ hok'
        have hcp : (parse_signal st draw message).2.current_phase =
            (if st.current_phase < st.multipliers.length then
              st.current_phase + 1 else st.current_phase) := by
          simp [parse_signal, if_neg hm, hpid, hwin', hlose]
        exact ⟨by rw [hcp]; exact hquse _ hqu, hph⟩
      · have hlose' : hasLose message = false := by
          cases hv : hasLose message
          · rfl
          · exact absurd hv hlose
        rw [parse_signal, if_neg hm, hpid] at hok
        simp [hwin', hlose'] at hok

theorem quantity_defaults_to_updated_phase_witness :
    phase2State.multipliers.get?
        ((parse_signal phase2State Color.Green msgWinRed).2.current_phase - 1) =
      some cexRecord.quantity ∧
    cexRecord.phase = phase2State.current_phase :=
  quantity_defaults_to_updated_phase phase2State Color.Green msgWinRed
    cexRecord (by decide)
    (fun g h => by
      rw [show extractQty msgWinRed = none from by decide] at h
      cases h)

theorem pyFloat_nonneg (s : List Char) (q : ℚ) (h : pyFloat s = some q) :
    0 ≤ q := by
  unfold pyFloat at h
  split at h
  · cases h
    positivity
  · cases h

theorem parse_ok_build (st : ProcState) (draw : Color) (message : List Char)
    (r : SignalRecord) (hok : (parse_signal st draw message).1 = Except.ok r) :
    ∃ pid phase' res,
      (parse_signal st draw message).2.current_phase = phase' ∧
      buildSignal st phase' pid res draw message = Except.ok r := by
  have hm : message ≠ [] := by
    intro h
    rw [parse_signal, if_pos h] at hok
    cases hok
  rcases hpid : extractPeriodId message with _ | pid
  · rw [parse_signal, if_neg hm, hpid] at hok; cases hok
  · by_cases hwin : hasWin message = true
    · refine ⟨pid, 1, Outcome.Win, ?_, ?_⟩
      · simp [parse_signal, if_neg hm, hpid, hwin]
      · rw [parse_signal, if_neg hm, hpid] at hok
        simpa [hwin] using hok
    · have hwin' : hasWin message = false := by
        cases hv : hasWin message
        · rfl
        · exact absurd hv hwin
      by_cases hlose : hasLose message = true
      · refine ⟨pid,
          (if st.current_phase < st.multipliers.length then
            st.current_phase + 1 else st.current_phase),
          Outcome.Lose, ?_, ?_⟩
        · simp [parse_signal, if_neg hm, hpid, hwin', hlose]
        · rw [parse_signal, if_neg hm, hpid] at hok
          simpa [hwin', hlose] using hok
      · have hlose' : hasLose message = false := by
          cases hv : hasLose message
          · rfl
          · exact absurd hv hlose
        rw [parse_signal, if_neg hm, hpid] at hok
        simp [hwin', hlose'] at hok

/-- C7 counterexample: the accepted message `msgQtyZero` (whose quantity
label reads `quantity: x0`) is stored in the feed's history with quantity
exactly 0, which is not strictly greater than 0. -/
theorem quantity_zero_counterexample :
    (parse_signal initProcessor Color.Green msgQtyZero).1 =
      Except.ok qtyZeroRecord ∧
    (add_signal (parse_signal initProcessor Color.Green msgQtyZero).2
      qtyZeroRecord).1 = true ∧
    (process_message initProcessor Color.Green msgQtyZero).signals =
      [qtyZeroRecord] ∧
    ¬ (0 < qtyZeroRecord.quantity) := by
  refine ⟨by decide, by decide, by decide, by decide⟩

/-- C7 amended: with the positive configured ladder, every accepted
record's quantity is nonnegative, and strictly positive whenever it was
defaulted from the ladder (i.e. no parsable quantity label); a quantity
parsed from the message's label, however, can be exactly 0. -/
theorem accepted_quantity_nonneg (st : ProcState) (draw : Color)
    (message : List Char) (r : SignalRecord)
    (hpos : ∀ q ∈ st.multipliers, 0 < q)
    (hok : (parse_signal st draw message).1 = Except.ok r) :
    0 ≤ r.quantity ∧
    ((∀ g, extractQty message = some g → pyFloat g = none) →
      0 < r.quantity) := by
  obtain ⟨pid, phase', res, -, hbuild⟩ := parse_ok_build st draw message r hok
  obtain ⟨-, hqu⟩ := buildSignal_ok _ _ _ _ _ _ _ hbuild
  unfold quantityAfterUpdate at hqu
  cases hext : extractQty message with
  | none =>
    rw [hext] at hqu
    have hmem : r.quantity ∈ st.multipliers := List.get?_mem hqu
    exact ⟨le_of_lt (hpos _ hmem), fun _ => hpos _ hmem⟩
  | some g =>
    rw [hext] at hqu
    cases hpf : pyFloat g with
    | none =>
      simp only [hpf] at hqu
      have hmem : r.quantity ∈ st.multipliers := List.get?_mem hqu
      exact ⟨le_of_lt (hpos _ hmem), fun _ => hpos _ hmem⟩
    | some q' =>
      simp only [hpf] at hqu
      cases hqu
      refine ⟨pyFloat_nonneg g _ hpf, fun hnone => ?_⟩
      rw [hnone g rfl] at hpf
      cases hpf

theorem accepted_quantity_nonneg_witness :
    0 ≤ initWinRecord.quantity ∧ 0 < initWinRecord.quantity :=
  have h := accepted_quantity_nonneg initProcessor Color.Green msgWinRed
    initWinRecord (by decide) (by decide)
  ⟨h.1, h.2 (fun g hg => by
    rw [show extractQty msgWinRed = none from by decide] at hg
    cases hg)⟩

theorem add_signal_shape (st : ProcState) (r : SignalRecord) :
    (r.period_id ∈ st.signals.map (fun s => s.period_id) ∧
      (add_signal st r).1 = false ∧ (add_signal st r).2 = st) ∨
    (r.period_id ∉ st.signals.map (fun s => s.period_id) ∧
      (add_signal st r).1 = true ∧
      (add_signal st r).2.current_phase = st.current_phase ∧
      (add_signal st r).2.multipliers = st.multipliers ∧
      r ∈ (add_signal st r).2.signals ∧
      (add_signal st r).2.signals.length =
        min (st.signals.length + 1) MAX_SIGNALS_HISTORY ∧
      ∃ k, k ≤ st.signals.length ∧
        (add_signal st r).2.signals = (st.signals ++ [r]).drop k) := by
  by_cases hmem : r.period_id ∈ st.signals.map (fun s => s.period_id)
  · left
    exact ⟨hmem, by simp [add_signal, hmem], by simp [add_signal, hmem]⟩
  · right
    have hsig : (add_signal st r).2.signals =
        if (st.signals ++ [r]).length > MAX_SIGNALS_HISTORY then
          (st.signals ++ [r]).drop
            ((st.signals ++ [r]).length - MAX_SIGNALS_HISTORY)
        else st.signals ++ [r] := by
      simp [add_signal, hmem]
    refine ⟨hmem, by simp [add_signal, hmem], by simp [add_signal, hmem],
      by simp [add_signal, hmem], ?_, ?_, ?_⟩
    · rw [hsig]; split
      · next hlen =>
        rw [List.drop_append_of_le_length
          (show (st.signals ++ [r]).length - MAX_SIGNALS_HISTORY ≤
            st.signals.length by
              simp [MAX_SIGNALS_HISTORY] at hlen ⊢; try omega)]
        exact List.mem_append_right _ (by simp)
      · exact List.mem_append_right _ (by simp)
    · rw [hsig]; split
      · next hlen =>
        rw [List.length_drop]
        simp [MAX_SIGNALS_HISTORY] at hlen ⊢
        try omega
      · next hlen =>
        simp [MAX_SIGNALS_HISTORY] at hlen ⊢
        try omega
    · rw [hsig]; split
      · next hlen =>
        exact ⟨(st.signals ++ [r]).length - MAX_SIGNALS_HISTORY,
          by simp [MAX_SIGNALS_HISTORY] at hlen ⊢; try omega, rfl⟩
      · exact ⟨0, Nat.zero_le _, by simp⟩

theorem parse_signal_state_fields (st : ProcState) (draw : Color)
    (msg : List Char) :
    (parse_signal st draw msg).2.signals = st.signals ∧
    (parse_signal st draw msg).2.multipliers = st.multipliers := by
  unfold parse_signal
  split
  · exact ⟨rfl, rfl⟩
  · split
    · exact ⟨rfl, rfl⟩
    · split
      · exact ⟨rfl, rfl⟩
      · split
        · exact ⟨rfl, rfl⟩
        · exact ⟨rfl, rfl⟩

theorem parse_signal_phase_bounds (st : ProcState) (draw : Color)
    (msg : List Char) (h1 : 1 ≤ st.current_phase)
    (h2 : st.current_phase ≤ st.multipliers.length) :
    1 ≤ (parse_signal st draw msg).2.current_phase ∧
    (parse_signal st draw msg).2.current_phase ≤ st.multipliers.length := by
  unfold parse_signal
  split
  · exact ⟨h1, h2⟩
  · split
    · exact ⟨h1, h2⟩
    · split
      · exact ⟨Nat.le_refl 1, (by omega : (1 : Nat) ≤ st.multipliers.length)⟩
      · split
        · by_cases hc : st.current_phase < st.multipliers.length
          · simp only [if_pos hc]
            exact ⟨(by omega : (1 : Nat) ≤ st.current_phase + 1),
              (by omega : st.current_phase + 1 ≤ st.multipliers.length)⟩
          · simp only [if_neg hc]
            exact ⟨h1, h2⟩
        · exact ⟨h1, h2⟩

theorem add_signal_invariant (st : ProcState) (r : SignalRecord)
    (hInv : Invariant st) (hr1 : 1 ≤ r.phase)
    (hr2 : r.phase ≤ st.multipliers.length) :
    Invariant (add_signal st r).2 := by
  obtain ⟨ha, hb, hc, hd⟩ := hInv
  rcases add_signal_shape st r with ⟨-, -, heq⟩ |
    ⟨-, -, hph, hmul, -, hlen, k, hk, hsig⟩
  · rw [heq]; exact ⟨ha, hb, hc, hd⟩
  · refine ⟨by rw [hph]; exact ha, by rw [hph, hmul]; exact hb, ?_, ?_⟩
    · rw [hlen]; omega
    · intro x hx
      rw [hmul]
      rw [hsig] at hx
      rcases List.mem_append.mp (List.mem_of_mem_drop hx) with hx' | hx'
      · exact hd x hx'
      · have hxr : x = r := by simpa using hx'
        rw [hxr]
        exact ⟨hr1, hr2⟩

theorem process_message_invariant (st : ProcState) (draw : Color)
    (msg : List Char) (hInv : Invariant st) :
    Invariant (process_message st draw msg) := by
  obtain ⟨ha, hb, hc, hd⟩ := hInv
  obtain ⟨hsig, hmul⟩ := parse_signal_state_fields st draw msg
  obtain ⟨hp1, hp2⟩ := parse_signal_phase_bounds st draw msg ha hb
  unfold process_message
  cases hres : (parse_signal st draw msg).1 with
  | error e =>
    exact ⟨hp1, by rw [hmul]; exact hp2, by rw [hsig]; exact hc,
      by rw [hsig, hmul]; exact hd⟩
  | ok r =>
    obtain ⟨pid, phase', res', -, hbuild⟩ := parse_ok_build st draw msg r hres
    obtain ⟨hrph, -⟩ := buildSignal_ok _ _ _ _ _ _ _ hbuild
    have hInv' : Invariant (parse_signal st draw msg).2 :=
      ⟨hp1, by rw [hmul]; exact hp2, by rw [hsig]; exact hc,
        by rw [hsig, hmul]; exact hd⟩
    exact add_signal_invariant (parse_signal st draw msg).2 r hInv'
      (by rw [hrph]; exact ha) (by rw [hrph, hmul]; exact hb)

/-- C8: every operation preserves the state invariant — phase (live and
stamped on each stored record) in `[1, len(multiplier_ladder)]` and
history length within the cap — and an insert that succeeds evicts only
from the front (the new history is a suffix of the old one plus the new
record, FIFO), while a rejected insert leaves the history unchanged. -/
theorem state_invariant_preserved (st : ProcState) (draw : Color)
    (msg : List Char) (r : SignalRecord) (hInv : Invariant st) :
    Invariant (process_message st draw msg) ∧
    (1 ≤ r.phase → r.phase ≤ st.multipliers.length →
      Invariant (add_signal st r).2) ∧
    ((add_signal st r).1 = true →
      ∃ k, (add_signal st r).2.signals = (st.signals ++ [r]).drop k) ∧
    ((add_signal st r).1 = false →
      (add_signal st r).2.signals = st.signals) := by
  refine ⟨process_message_invariant st draw msg hInv,
    fun hr1 hr2 => add_signal_invariant st r hInv hr1 hr2, ?_, ?_⟩
  · intro htrue
    rcases add_signal_shape st r with ⟨-, hfalse, -⟩ |
      ⟨-, -, -, -, -, -, k, -, hsig⟩
    · rw [htrue] at hfalse; cases hfalse
    · exact ⟨k, hsig⟩
  · intro hfalse
    rcases add_signal_shape st r with ⟨-, -, heq⟩ | ⟨-, htrue, -⟩
    · rw [heq]
    · rw [hfalse] at htrue; cases htrue

theorem state_invariant_preserved_witness :
    Invariant (process_message initProcessor Color.Green msgWinRed) :=
  (state_invariant_preserved initProcessor Color.Green msgWinRed freshRec
    (by decide)).1

/-- C2 counterexample: with the feed at the `MAX_SIGNALS_HISTORY = 100`
cap, inserting a fresh record twice returns `true` then `false`, but the
stored count goes `100 → 100 → 100`: it does not change by exactly 1,
because a successful insert at the cap evicts the oldest record. -/
theorem insert_at_cap_counterexample :
    MAX_SIGNALS_HISTORY = 100 ∧
    fullState.signals.length = 100 ∧
    (add_signal fullState freshRec).1 = true ∧
    (add_signal fullState freshRec).2.signals.length = 100 ∧
    (add_signal (add_signal fullState freshRec).2 freshRec).1 = false ∧
    (add_signal (add_signal fullState freshRec).2 freshRec).2.signals.length
      = 100 := by
  refine ⟨by decide, by decide, by decide, by decide, by decide, by decide⟩

/-- C2 amended: `add_signal` returns `true` iff no stored record of the
feed shares the record's `period_id`; a duplicate insert returns `false`
and leaves the state unchanged; a fresh insert drives the stored count to
`min(count + 1, MAX_SIGNALS_HISTORY)` — exactly one more below the cap,
unchanged at the cap (oldest evicted) — and a second insert of the same
`period_id` returns `false`. -/
theorem insert_dedup_spec (st : ProcState) (r : SignalRecord) :
    ((add_signal st r).1 = true ↔
      r.period_id ∉ st.signals.map (fun s => s.period_id)) ∧
    (r.period_id ∈ st.signals.map (fun s => s.period_id) →
      (add_signal st r).2 = st) ∧
    (r.period_id ∉ st.signals.map (fun s => s.period_id) →
      (add_signal st r).2.signals.length =
        min (st.signals.length + 1) MAX_SIGNALS_HISTORY ∧
      (add_signal (add_signal st r).2 r).1 = false) := by
  rcases add_signal_shape st r with ⟨hmem, hfalse, heq⟩ |
    ⟨hmem, htrue, -, -, hrmem, hlen, -⟩
  · refine ⟨?_, fun _ => heq, fun hnot => absurd hmem hnot⟩
    rw [hfalse]
    simp [hmem]
  · refine ⟨?_, fun hmem' => absurd hmem' hmem, fun _ => ⟨hlen, ?_⟩⟩
    · rw [htrue]; simp [hmem]
    · have hpid : r.period_id ∈
          (add_signal st r).2.signals.map (fun s => s.period_id) :=
        List.mem_map_of_mem _ hrmem
      rcases add_signal_shape (add_signal st r).2 r with ⟨-, hfalse2, -⟩ |
        ⟨hmem2, -, -⟩
      · exact hfalse2
      · exact absurd hpid hmem2

theorem insert_dedup_spec_witness :
    (add_signal initProcessor freshRec).1 = true ∧
    (add_signal initProcessor freshRec).2.signals.length =
      min (initProcessor.signals.length + 1) MAX_SIGNALS_HISTORY :=
  ⟨(insert_dedup_spec initProcessor freshRec).1.mpr (by decide),
   ((insert_dedup_spec initProcessor freshRec).2.2 (by decide)).1⟩

/-- C3: on a history of at least 3 records whose trailing-window known
colors end in two equal colors, `predict` returns the opposite color
with confidence Medium and probability 0.65. -/
theorem predict_streak_break (window_size : Nat)
    (signals : List SignalRecord) (c1 c2 : Color) (rest : List Color)
    (hlen : 3 ≤ signals.length)
    (hrev : (recentColorsOf window_size signals).reverse = c1 :: c2 :: rest)
    (heq : c1 = c2) :
    predict window_size signals =
      { color := toPredColor (oppositeColor c1),
        confidence := Confidence.Medium, probability := 0.65 } := by
  subst heq
  have hne : recentColorsOf window_size signals ≠ [] := by
    intro h; rw [h] at hrev; cases hrev
  have htot : ¬ (totalKnown (recentColorsOf window_size signals) = 0) := by
    rw [totalKnown_eq_length]
    intro h0
    exact hne (List.length_eq_zero.mp h0)
  unfold predict
  rw [if_neg (by omega), if_neg hne, if_neg htot, hrev]
  simp

theorem predict_streak_break_witness :
    predict 5 histB =
      { color := PredColor.Green, confidence := Confidence.Medium,
        probability := 0.65 } :=
  predict_streak_break 5 histB Color.Red Color.Red
    [Color.Green, Color.Green, Color.Green] (by decide) (by decide) rfl

/-- C4: on a history of at least 3 records with a nonempty known-color
window on which the streak-break rule does not fire, `predict` follows
the green-share table: Green/Medium/share above 0.6, Red/Medium/(1−share)
below 0.4, and otherwise the color whose share is at least 0.5 (Green on
the exact tie) with Low confidence and probability 0.55. -/
theorem predict_share_rule (window_size : Nat)
    (signals : List SignalRecord)
    (hlen : 3 ≤ signals.length)
    (hne : recentColorsOf window_size signals ≠ [])
    (hstreak : streakFires (recentColorsOf window_size signals) = false) :
    (0.6 < greenShare (recentColorsOf window_size signals) →
      predict window_size signals =
        { color := PredColor.Green, confidence := Confidence.Medium,
          probability := greenShare (recentColorsOf window_size signals) }) ∧
    (greenShare (recentColorsOf window_size signals) < 0.4 →
      predict window_size signals =
        { color := PredColor.Red, confidence := Confidence.Medium,
          probability :=
            1 - greenShare (recentColorsOf window_size signals) }) ∧
    (0.4 ≤ greenShare (recentColorsOf window_size signals) →
      greenShare (recentColorsOf window_size signals) ≤ 0.6 →
      predict window_size signals =
        { color :=
            if 0.5 ≤ greenShare (recentColorsOf window_size signals) then
              PredColor.Green else PredColor.Red,
          confidence := Confidence.Low, probability := 0.55 }) := by
  have htot : ¬ (totalKnown (recentColorsOf window_size signals) = 0) := by
    rw [totalKnown_eq_length]
    intro h0
    exact hne (List.length_eq_zero.mp h0)
  have hpred : predict window_size signals =
      sharePrediction (greenShare (recentColorsOf window_size signals)) := by
    unfold predict
    rw [if_neg (by omega), if_neg hne, if_neg htot]
    cases hrev : (recentColorsOf window_size signals).reverse with
    | nil => rfl
    | cons d1 tl =>
      cases tl with
      | nil => rfl
      | cons d2 tl2 =>
        have hd : (d1 == d2) = false := by
          unfold streakFires at hstreak
          rw [hrev] at hstreak
          exact hstreak
        have hd' : ¬ (d1 = d2) := by
          intro hc
          rw [hc] at hd
          simp at hd
        simp only [if_neg hd']
  refine ⟨?_, ?_, ?_⟩
  · intro hgt
    rw [hpred]
    unfold sharePrediction
    rw [if_pos hgt]
  · intro hlt
    rw [hpred]
    unfold sharePrediction
    rw [if_neg (not_lt.mpr (le_of_lt
        (lt_trans hlt (by norm_num : (0.4 : ℚ) < 0.6)))),
      if_pos hlt]
  · intro h04 h06
    rw [hpred]
    unfold sharePrediction
    rw [if_neg (not_lt.mpr h06), if_neg (not_lt.mpr h04)]

theorem predict_share_rule_witness :
    predict 5 histC =
      { color := PredColor.Green, confidence := Confidence.Medium,
        probability := greenShare (recentColorsOf 5 histC) } ∧
    greenShare (recentColorsOf 5 histC) = 0.8 :=
  ⟨(predict_share_rule 5 histC (by decide) (by decide) (by decide)).1
      (by decide),
   by decide⟩
